import Mathlib

/-!
Verification of the `@framjet/spa-config` configuration loader
(`src/loader.ts`).  The loader reads environment-style key/value pairs
from whichever sources the host runtime exposes (a process-style env
mapping, a bundler build-time env mapping, a Deno-style accessor, and
browser-injected env objects), merges them into a cache, and answers
typed `get` queries with prefix-based fallback.

The embedding below is shallow: JavaScript string-keyed objects become
`String → Option String`, host globals that may be absent become
`Option`-valued fields of a `Host` record, code that may throw returns
`Except`, and the mutable `#envCache` field is threaded explicitly.
-/

namespace SpaConfig

/-- A JavaScript string-keyed object holding string values:
`some v` means the key is an own property with value `v`. -/
abbrev EnvMap := String → Option String

/-- The empty object `{}` (initial value of `#envCache`). -/
def emptyEnv : EnvMap := fun _ => none

/-- `obj[key] = value` on a JS object. -/
def cacheInsert (c : EnvMap) (k v : String) : EnvMap :=
  fun x => if x = k then some v else c x

/-- `Object.assign(c, m)`: every own key of `m` overwrites `c`. -/
def assign (c m : EnvMap) : EnvMap :=
  fun x => match m x with
  | some v => some v
  | none => c x

/-- A guarded `Object.assign`: applied only when the source object is
present (the surrounding `if` in `#loadEnvironmentVariables`). -/
def assignIf (c : EnvMap) : Option EnvMap → EnvMap
  | some m => assign c m
  | none => c

/-- The `Deno` global: `Deno.env.toObject()` and `Deno.env.get(key)`,
either of which may throw (modelled by `Except.error` with message). -/
structure DenoNamespace where
  toObject : Except String EnvMap
  envGet : String → Except String (Option String)

/-- The browser `window` global, as the loader reads it:
`window.__ENV__`, `window.env`, `window.process?.env`
(the outer `Option` of `processShim` is `window.process` itself),
and the `__webpack_require__` marker used by runtime detection. -/
structure BrowserWindow where
  dunderEnv : Option EnvMap
  envObj : Option EnvMap
  processShim : Option (Option EnvMap)
  webpackRequire : Bool

/-- Everything the loader reads from the host runtime.
`processEnv`: outer `Option` is `typeof process !== 'undefined'`,
inner `Option` is the truthiness of `process.env`.
`metaEnv`: likewise for `import.meta` and `import.meta.env`.
`globalImportMeta`: `typeof globalThis.importMeta !== 'undefined'`.
`deno` / `bun`: the `Deno` / `Bun` globals.
`globalEnvObj`: the catch-all `globalThis.__ENV__`. -/
structure Host where
  processEnv : Option (Option EnvMap)
  metaEnv : Option (Option EnvMap)
  globalImportMeta : Bool
  deno : Option DenoNamespace
  bun : Bool
  window : Option BrowserWindow
  globalEnvObj : Option EnvMap

/-- The `RuntimeDetection` record of `loader.ts`. -/
structure RuntimeDetection where
  isNode : Bool
  isBrowser : Bool
  isVite : Bool
  isWebpack : Bool
  isDeno : Bool
  isBun : Bool
deriving DecidableEq

/-- The mutable fields of a `ConfigLoader` instance:
`#runtimeDetection` (readonly after construction) and `#envCache`. -/
structure ConfigLoaderState where
  runtimeDetection : RuntimeDetection
  envCache : EnvMap

namespace ConfigLoader

/-- `#detectRuntime` of `loader.ts`. -/
def detectRuntime (h : Host) : RuntimeDetection :=
  let hasProcess := h.processEnv.isSome
  let hasWindow := h.window.isSome
  let hasImportMeta := h.globalImportMeta || h.metaEnv.isSome
  let hasDeno := h.deno.isSome
  let hasBun := h.bun
  { isNode := hasProcess && !hasWindow && !hasDeno && !hasBun
    isBrowser := hasWindow
    isVite := hasImportMeta && hasWindow
    isWebpack := hasWindow && (match h.window with
      | some w => w.webpackRequire
      | none => false)
    isDeno := hasDeno
    isBun := hasBun }

/-- `const windowEnv = window.__ENV__ || window.env || window.process?.env`:
the first truthy of the three browser injection points. -/
def windowEnv (w : BrowserWindow) : Option EnvMap :=
  w.dunderEnv <|> w.envObj <|> w.processShim.bind id

/-- The process-style env object, when `typeof process !== 'undefined'`
and `process.env` is truthy. -/
def procMap (h : Host) : Option EnvMap :=
  match h.processEnv with
  | some (some m) => some m
  | _ => none

/-- The bundler build-time env object, when `import.meta` exists and
`import.meta.env` is truthy. -/
def metaMap (h : Host) : Option EnvMap :=
  match h.metaEnv with
  | some (some m) => some m
  | _ => none

/-- The object returned by `Deno.env.toObject()`, when the `Deno`
global exists and the call does not throw; a throwing call yields
nothing (the `catch` block is empty). -/
def denoMap (h : Host) : Option EnvMap :=
  match h.deno with
  | some d =>
    match d.toObject with
    | Except.ok m => some m
    | Except.error _ => none
  | none => none

/-- The browser-injected env object, when `window` exists and one of
the three injection points is truthy. -/
def windowMap (h : Host) : Option EnvMap :=
  h.window.bind windowEnv

/-- The catch-all `globalThis.__ENV__` object. -/
def globalMap (h : Host) : Option EnvMap :=
  h.globalEnvObj

/-- `#loadEnvironmentVariables` of `loader.ts`: five guarded
`Object.assign`s into the cache, in source order. -/
def loadEnvironmentVariables (h : Host) (cache : EnvMap) : EnvMap :=
  assignIf (assignIf (assignIf (assignIf (assignIf cache
    (procMap h)) (metaMap h)) (denoMap h)) (windowMap h)) (globalMap h)

/-- The `ConfigLoader` constructor: detect the runtime once, then fill
the (initially empty) cache from all available sources. -/
def init (h : Host) : ConfigLoaderState :=
  { runtimeDetection := detectRuntime h
    envCache := loadEnvironmentVariables h emptyEnv }

/-- The value `process.env[key]` when `process` exists, `process.env`
is truthy, `key in process.env` and the value is defined. -/
def procValue (h : Host) (k : String) : Option String :=
  (procMap h).bind fun m => m k

/-- The value `import.meta.env[key]` when present and defined. -/
def metaValue (h : Host) (k : String) : Option String :=
  (metaMap h).bind fun m => m k

/-- The value of `Deno.env.get(key)` when the `Deno` global exists and
the call neither throws nor returns undefined (a thrown permission
error is swallowed by the empty `catch`). -/
def denoValue (h : Host) (k : String) : Option String :=
  match h.deno with
  | some d =>
    match d.envGet k with
    | Except.ok v => v
    | Except.error _ => none
  | none => none

/-- `#tryGetValue` of `loader.ts`: check the cache; then re-query the
process env, the bundler env and the Deno accessor in that order, each
hit being written back into the cache before being returned; if every
step misses, return `undefined` with the cache untouched. -/
def tryGetValue (h : Host) (cache : EnvMap) (key : String) :
    Option String × EnvMap :=
  match cache key with
  | some v => (some v, cache)
  | none =>
    match procValue h key with
    | some v => (some v, cacheInsert cache key v)
    | none =>
      match metaValue h key with
      | some v => (some v, cacheInsert cache key v)
      | none =>
        match denoValue h key with
        | some v => (some v, cacheInsert cache key v)
        | none => (none, cache)

/-- The `commonPrefixes` array of `ConfigLoader.get`. -/
def commonPfxs : List String :=
  ["VITE_", "REACT_APP_", "VUE_APP_", "NEXT_PUBLIC_"]

/-- The fallback loop of `ConfigLoader.get`: try each common prefix in
order, stopping at the first hit (a miss leaves the cache unchanged,
so the updated cache is threaded through). -/
def tryCommonPfxs (h : Host) : EnvMap → String → List String →
    Option String × EnvMap
  | cache, _, [] => (none, cache)
  | cache, key, p :: ps =>
    match tryGetValue h cache (p ++ key) with
    | (some v, c) => (some v, c)
    | (none, c) => tryCommonPfxs h c key ps

/-- `ConfigLoader.get`: `opts` models the optional `options.prefix`
(`none` when the caller passed no options object or no prefix field;
the destructuring default maps that to `''`).  The full key is
`prefix + key` when the prefix is truthy (non-empty), else the key
itself; the common-prefix fallback runs only when the prefix is
falsy (empty). -/
def get (h : Host) (cache : EnvMap) (key : String) (opts : Option String) :
    Option String × EnvMap :=
  let pfx := opts.getD ""
  let fullKey := if pfx = "" then key else pfx ++ key
  let r := tryGetValue h cache fullKey
  match r.1 with
  | some v => (some v, r.2)
  | none =>
    if pfx = "" then tryCommonPfxs h r.2 key commonPfxs
    else (none, r.2)

/-- The key recomputed inside `getTransformed`'s catch block:
`prefix ? prefix + key : key`. -/
def resolvedKey (key : String) (opts : Option String) : String :=
  let pfx := opts.getD ""
  if pfx = "" then key else pfx ++ key

end ConfigLoader

/-- A thrown JavaScript value, as the `Error` constructor's options
inspection sees it: its own message, and — when the value is an object
exposing a `cause` property — that property's value.  A plain
`throw new Error(msg)` (every throw performed by this loader's own
typed getters) has no `cause` property; a thrown primitive has none
either. -/
structure JsThrown where
  message : String
  causeProp : Option String
deriving DecidableEq

/-- The error thrown by `getTransformed`'s catch block,
`new Error('Failed to transform config value for key "<fullKey>":', e)`.
Per ECMAScript `InstallErrorCause`, the second constructor argument is
an options bag: a `cause` is installed on the new error only when that
argument has a `cause` property, and then the installed cause is that
property's value.  So the new error carries the resolved key in its
message, and a cause only in the degenerate case where the caught
value itself carried one. -/
structure TransformFailure where
  message : String
  cause : Option String
deriving DecidableEq

namespace ConfigLoader

/-- `ConfigLoader.getTransformed`: apply the caller-supplied transform
to the raw string when `get` found one; a throwing transform is
re-signalled as the `TransformFailure` built by
`new Error('Failed to transform config value for key "<fullKey>":', e)`
(message names the resolved key; the installed cause is the caught
value's own `cause` property, if any — not the caught value itself);
when `get` found nothing, return `undefined` without running the
transform. -/
def getTransformed {α : Type} (h : Host) (cache : EnvMap) (key : String)
    (transform : String → Except JsThrown α) (opts : Option String) :
    Except TransformFailure (Option α) × EnvMap :=
  let r := get h cache key opts
  match r.1 with
  | some v =>
    match transform v with
    | Except.ok t => (Except.ok (some t), r.2)
    | Except.error e =>
      (Except.error
        { message := "Failed to transform config value for key \"" ++
            resolvedKey key opts ++ "\":"
          cause := e.causeProp }, r.2)
  | none => (Except.ok none, r.2)

/-- `ConfigLoader.getRequired`: like `get`, but a miss throws
`Required config value "<key>" is not defined`, where `<key>` is the
originally requested key, not the resolved full key. -/
def getRequired (h : Host) (cache : EnvMap) (key : String)
    (opts : Option String) : Except String String × EnvMap :=
  let r := get h cache key opts
  match r.1 with
  | some v => (Except.ok v, r.2)
  | none =>
    (Except.error ("Required config value \"" ++ key ++ "\" is not defined"),
      r.2)

/-- `ConfigLoader.has`: `this.get(key) !== undefined` (no options). -/
def has (h : Host) (cache : EnvMap) (key : String) : Bool :=
  (get h cache key none).1.isSome

/-- `ConfigLoader.set`: unconditionally write into the cache. -/
def set (cache : EnvMap) (key value : String) : EnvMap :=
  cacheInsert cache key value

/-- `ConfigLoader.refresh`: reset the cache to `{}` and re-run
`#loadEnvironmentVariables`; `#runtimeDetection` is not touched. -/
def refresh (h : Host) (s : ConfigLoaderState) : ConfigLoaderState :=
  { s with envCache := loadEnvironmentVariables h emptyEnv }

/-- `ConfigLoader.getRuntime`: return a (value) copy of the runtime
detection record computed at construction. -/
def getRuntime (s : ConfigLoaderState) : RuntimeDetection :=
  s.runtimeDetection

end ConfigLoader

/-!
A model of the ECMAScript `Number(string)` coercion (`StringToNumber`),
used by `ConfigLoader.getNumber`.  A JavaScript number is here `nan`,
an infinity, or an exact rational (the model keeps exact values where
the host would round to a binary double; the claims under verification
only depend on zero-ness and NaN-ness, which rounding preserves).
-/

/-- A JavaScript number as far as `getNumber` observes it. -/
inductive JsNumber : Type
  | nan : JsNumber
  | posInf : JsNumber
  | negInf : JsNumber
  | val : ℚ → JsNumber
deriving DecidableEq

/-- ECMAScript `StrWhiteSpaceChar`: whitespace and line terminators
stripped by `StringToNumber`. -/
def isJsWs (c : Char) : Bool :=
  let n := c.toNat
  n = 9 || n = 10 || n = 11 || n = 12 || n = 13 || n = 32 || n = 160 ||
  n = 0x1680 || (0x2000 ≤ n && n ≤ 0x200A) || n = 0x2028 || n = 0x2029 ||
  n = 0x202F || n = 0x205F || n = 0x3000 || n = 0xFEFF

/-- Strip leading and trailing ECMAScript whitespace. -/
def jsTrim (s : String) : String :=
  String.mk (((s.data.dropWhile isJsWs).reverse.dropWhile isJsWs).reverse)

/-- Decimal digit value of a character, if any (codes 48–57). -/
def decDigit (c : Char) : Option Nat :=
  let n := c.toNat
  if 48 ≤ n && n ≤ 57 then some (n - 48) else none

/-- Hexadecimal digit value of a character, if any
(codes 48–57, 97–102 and 65–70). -/
def hexDigit (c : Char) : Option Nat :=
  let n := c.toNat
  if 48 ≤ n && n ≤ 57 then some (n - 48)
  else if 97 ≤ n && n ≤ 102 then some (n - 87)
  else if 65 ≤ n && n ≤ 70 then some (n - 55)
  else none

/-- Octal digit value of a character, if any (codes 48–55). -/
def octDigit (c : Char) : Option Nat :=
  let n := c.toNat
  if 48 ≤ n && n ≤ 55 then some (n - 48) else none

/-- Binary digit value of a character, if any. -/
def binDigit (c : Char) : Option Nat :=
  if c = '0' then some 0 else if c = '1' then some 1 else none

/-- Value of a digit string in the given base. -/
def digitsToNat (base : Nat) (ds : List Nat) : Nat :=
  ds.foldl (fun a d => a * base + d) 0

/-- Parse a whole non-empty digit string in the given base
(`0x…` / `0o…` / `0b…` bodies); anything else is no parse. -/
def parseRadix (base : Nat) (dig : Char → Option Nat) (cs : List Char) :
    Option Nat :=
  match cs.mapM dig with
  | some ds => if ds.isEmpty then none else some (digitsToNat base ds)
  | none => none

/-- Split a leading run of decimal digits off a character list. -/
def spanDigits : List Char → List Nat × List Char
  | [] => ([], [])
  | c :: rest =>
    match decDigit c with
    | some d =>
      let (ds, r) := spanDigits rest
      (d :: ds, r)
    | none => ([], c :: rest)

/-- Parse an ECMAScript `ExponentPart` body (after the `e`/`E`):
optional sign, then a non-empty digit run consuming the whole rest. -/
def parseExp (cs : List Char) : Option Int :=
  let (sgn, rest) : Int × List Char :=
    match cs with
    | '+' :: r => (1, r)
    | '-' :: r => (-1, r)
    | r => (1, r)
  let (ds, r2) := spanDigits rest
  if ds.isEmpty || !r2.isEmpty then none
  else some (sgn * (digitsToNat 10 ds : Int))

/-- The exact rational `(ip . fp) × 10^e`. -/
def decValue (ip fp : List Nat) (e : Int) : ℚ :=
  let base : ℚ :=
    (digitsToNat 10 ip : ℚ) + (digitsToNat 10 fp : ℚ) / (10 : ℚ) ^ fp.length
  if 0 ≤ e then base * (10 : ℚ) ^ e.toNat else base / (10 : ℚ) ^ (-e).toNat

/-- Parse an ECMAScript `StrUnsignedDecimalLiteral`:
`Infinity`, `digits [. digits] [exp]`, or `. digits [exp]`,
consuming the whole input. -/
def parseUnsignedDec (cs : List Char) : Option JsNumber :=
  if cs = "Infinity".data then some JsNumber.posInf
  else
    let (ip, r1) := spanDigits cs
    match r1 with
    | [] => if ip.isEmpty then none else some (JsNumber.val (decValue ip [] 0))
    | '.' :: r2 =>
      let (fp, r3) := spanDigits r2
      if ip.isEmpty && fp.isEmpty then none
      else
        match r3 with
        | [] => some (JsNumber.val (decValue ip fp 0))
        | 'e' :: r4 => (parseExp r4).map fun e => JsNumber.val (decValue ip fp e)
        | 'E' :: r4 => (parseExp r4).map fun e => JsNumber.val (decValue ip fp e)
        | _ => none
    | 'e' :: r4 =>
      if ip.isEmpty then none
      else (parseExp r4).map fun e => JsNumber.val (decValue ip [] e)
    | 'E' :: r4 =>
      if ip.isEmpty then none
      else (parseExp r4).map fun e => JsNumber.val (decValue ip [] e)
    | _ => none

/-- ECMAScript `Number(string)` (`StringToNumber`): trim whitespace;
an empty remainder is `+0`; otherwise parse a `StrNumericLiteral`
(signed decimal literal, `Infinity`, or an unsigned `0x`/`0o`/`0b`
literal), any failure giving `NaN`. -/
def jsStringToNumber (s : String) : JsNumber :=
  let t := jsTrim s
  if t = "" then JsNumber.val 0
  else
    match t.data with
    | '0' :: 'x' :: r =>
      match parseRadix 16 hexDigit r with
      | some n => JsNumber.val (n : ℚ)
      | none => JsNumber.nan
    | '0' :: 'X' :: r =>
      match parseRadix 16 hexDigit r with
      | some n => JsNumber.val (n : ℚ)
      | none => JsNumber.nan
    | '0' :: 'o' :: r =>
      match parseRadix 8 octDigit r with
      | some n => JsNumber.val (n : ℚ)
      | none => JsNumber.nan
    | '0' :: 'O' :: r =>
      match parseRadix 8 octDigit r with
      | some n => JsNumber.val (n : ℚ)
      | none => JsNumber.nan
    | '0' :: 'b' :: r =>
      match parseRadix 2 binDigit r with
      | some n => JsNumber.val (n : ℚ)
      | none => JsNumber.nan
    | '0' :: 'B' :: r =>
      match parseRadix 2 binDigit r with
      | some n => JsNumber.val (n : ℚ)
      | none => JsNumber.nan
    | '+' :: r => (parseUnsignedDec r).getD JsNumber.nan
    | '-' :: r =>
      match parseUnsignedDec r with
      | some JsNumber.posInf => JsNumber.negInf
      | some (JsNumber.val q) => JsNumber.val (-q)
      | _ => JsNumber.nan
    | r => (parseUnsignedDec r).getD JsNumber.nan

namespace ConfigLoader

/-- `ConfigLoader.getNumber`: `getTransformed` with the transform
`const num = Number(value); if (isNaN(num)) throw new Error('Value
"<value>" is not a valid number'); return num`. -/
def getNumber (h : Host) (cache : EnvMap) (key : String)
    (opts : Option String) :
    Except TransformFailure (Option JsNumber) × EnvMap :=
  getTransformed h cache key
    (fun value =>
      let num := jsStringToNumber value
      if num = JsNumber.nan then
        Except.error
          { message := "Value \"" ++ value ++ "\" is not a valid number"
            causeProp := none }
      else Except.ok num)
    opts

end ConfigLoader

/-!
Spec-side definitions.  These transcribe the wording of the
specification (`spec.md`), to be compared with the definitions above,
which transcribe the source.
-/

/-- Modelled from the spec §4.3 (direct lookup, steps a–e): check the
cached Environment Snapshot; otherwise take the first hit among the
process-style mapping, the bundler build-time mapping and the
Deno-style accessor, each later step attempted only on a miss of the
previous; on a hit, write the value into the Snapshot and return it;
if all steps miss, return the not-found marker. -/
def directLookupSpec (h : Host) (cache : EnvMap) (key : String) :
    Option String × EnvMap :=
  match cache key with
  | some v => (some v, cache)
  | none =>
    match ConfigLoader.procValue h key <|> ConfigLoader.metaValue h key <|>
        ConfigLoader.denoValue h key with
    | some v => (some v, cacheInsert cache key v)
    | none => (none, cache)

/-- Modelled from the spec §4.2: the ordered list of available sources
(process-style mapping, bundler build-time mapping, Deno-style bulk
export, browser-injected env object, catch-all global env object);
absent or throwing sources are skipped. -/
def sourceMapsInOrder (h : Host) : List EnvMap :=
  (ConfigLoader.procMap h).toList ++ (ConfigLoader.metaMap h).toList ++
    (ConfigLoader.denoMap h).toList ++ (ConfigLoader.windowMap h).toList ++
    (ConfigLoader.globalMap h).toList

/-- Modelled from the spec §4.2 merge policy: the value of a key under
a last-writer-wins merge of an ordered list of sources — the value
from the latest source that defines the key. -/
def lastWrite : List EnvMap → String → Option String
  | [], _ => none
  | m :: ms, k =>
    match lastWrite ms k with
    | some v => some v
    | none => m k

/-- Modelled from the spec §4.3 step 3: the first hit of the direct
lookup run for each fallback prefix in order, all against the same
snapshot. -/
def chainLookup (h : Host) (cache : EnvMap) (key : String) :
    List String → Option String
  | [] => none
  | p :: ps =>
    (ConfigLoader.tryGetValue h cache (p ++ key)).1 <|>
      chainLookup h cache key ps

/-- The key is absent from every source of the host: the process-style
mapping, the bundler mapping, the Deno accessor (both its bulk export
and its per-key getter, a throwing call counting as absent), the
browser-injected env object and the catch-all global env object. -/
def hostAbsentB (h : Host) (k : String) : Bool :=
  (ConfigLoader.procValue h k).isNone &&
  (ConfigLoader.metaValue h k).isNone &&
  (match h.deno with
   | some d =>
     (match d.toObject with
      | Except.ok m => (m k).isNone
      | Except.error _ => true) &&
     (match d.envGet k with
      | Except.ok (some _) => false
      | _ => true)
   | none => true) &&
  (match ConfigLoader.windowMap h with
   | some m => (m k).isNone
   | none => true) &&
  (match ConfigLoader.globalMap h with
   | some m => (m k).isNone
   | none => true)

/-!  Helper lemmas. -/

lemma assignIf_apply_none (c : EnvMap) (o : Option EnvMap) (k : String)
    (ho : ∀ m ∈ o, m k = none) : assignIf c o k = c k := by
  cases o with
  | none => rfl
  | some m =>
    have := ho m rfl
    simp [assignIf, assign, this]

lemma foldl_assign_toList (c : EnvMap) (o : Option EnvMap) (ms : List EnvMap) :
    (o.toList ++ ms).foldl assign c = ms.foldl assign (assignIf c o) := by
  cases o <;> rfl

lemma foldl_assign_toList_nil (c : EnvMap) (o : Option EnvMap) :
    (o.toList).foldl assign c = assignIf c o := by
  cases o <;> rfl

lemma loadEnvironmentVariables_eq_foldl (h : Host) (c : EnvMap) :
    ConfigLoader.loadEnvironmentVariables h c =
      (sourceMapsInOrder h).foldl assign c := by
  unfold ConfigLoader.loadEnvironmentVariables sourceMapsInOrder
  rw [List.append_assoc, List.append_assoc, List.append_assoc,
    foldl_assign_toList, foldl_assign_toList, foldl_assign_toList,
    foldl_assign_toList, foldl_assign_toList_nil]

lemma foldl_assign_apply (ms : List EnvMap) (c : EnvMap) (k : String) :
    (ms.foldl assign c) k =
      match lastWrite ms k with
      | some v => some v
      | none => c k := by
  induction ms generalizing c with
  | nil => simp [lastWrite]
  | cons m ms ih =>
    rw [List.foldl_cons, ih]
    cases hms : lastWrite ms k with
    | some v => simp [lastWrite, hms]
    | none =>
      simp only [lastWrite, hms]
      cases hmk : m k <;> simp [assign, hmk]

lemma tryGetValue_miss (h : Host) (c : EnvMap) (k : String)
    (hm : (ConfigLoader.tryGetValue h c k).1 = none) :
    ConfigLoader.tryGetValue h c k = (none, c) := by
  unfold ConfigLoader.tryGetValue at hm ⊢
  cases hc : c k <;> cases hp : ConfigLoader.procValue h k <;>
    cases hmt : ConfigLoader.metaValue h k <;>
    cases hd : ConfigLoader.denoValue h k <;>
    simp [hc, hp, hmt, hd] at hm ⊢

lemma tryCommonPfxs_fst (h : Host) (c : EnvMap) (k : String)
    (ps : List String) :
    (ConfigLoader.tryCommonPfxs h c k ps).1 = chainLookup h c k ps := by
  induction ps generalizing c with
  | nil => rfl
  | cons p ps ih =>
    unfold ConfigLoader.tryCommonPfxs chainLookup
    cases ht : ConfigLoader.tryGetValue h c (p ++ k) with
    | mk v c2 =>
      cases v with
      | some w => simp
      | none =>
        have hc2 : c2 = c := by
          have := tryGetValue_miss h c (p ++ k) (by rw [ht])
          rw [ht] at this
          exact (Prod.mk.injEq _ _ _ _).mp this |>.2
        subst hc2
        simp [ih]

lemma getTransformed_fst {α : Type} (h : Host) (c : EnvMap) (k : String)
    (t : String → Except JsThrown α) (opts : Option String) :
    (ConfigLoader.getTransformed h c k t opts).1 =
      match (ConfigLoader.get h c k opts).1 with
      | some v =>
        match t v with
        | Except.ok x => Except.ok (some x)
        | Except.error e =>
          Except.error
            { message := "Failed to transform config value for key \"" ++
                ConfigLoader.resolvedKey k opts ++ "\":"
              cause := e.causeProp }
      | none => Except.ok none := by
  unfold ConfigLoader.getTransformed
  cases hg : (ConfigLoader.get h c k opts).1 with
  | none => simp [hg]
  | some v => cases ht : t v <;> simp [hg, ht]

lemma hostAbsent_procValue (h : Host) (k : String)
    (ha : hostAbsentB h k = true) : ConfigLoader.procValue h k = none := by
  unfold hostAbsentB at ha
  simp only [Bool.and_eq_true] at ha
  exact Option.isNone_iff_eq_none.mp ha.1.1.1.1

lemma hostAbsent_metaValue (h : Host) (k : String)
    (ha : hostAbsentB h k = true) : ConfigLoader.metaValue h k = none := by
  unfold hostAbsentB at ha
  simp only [Bool.and_eq_true] at ha
  exact Option.isNone_iff_eq_none.mp ha.1.1.1.2

lemma hostAbsent_denoValue (h : Host) (k : String)
    (ha : hostAbsentB h k = true) : ConfigLoader.denoValue h k = none := by
  unfold hostAbsentB at ha
  simp only [Bool.and_eq_true] at ha
  have hd := ha.1.1.2
  unfold ConfigLoader.denoValue
  cases hdn : h.deno with
  | none => rfl
  | some d =>
    rw [hdn] at hd
    simp only [Bool.and_eq_true] at hd
    cases hg : d.envGet k with
    | error e => simp [hg]
    | ok v =>
      cases v with
      | none => simp [hg]
      | some w => rw [hg] at hd; simp at hd

lemma hostAbsent_tryGetValue (h : Host) (c : EnvMap) (k : String)
    (ha : hostAbsentB h k = true) (hc : c k = none) :
    ConfigLoader.tryGetValue h c k = (none, c) := by
  unfold ConfigLoader.tryGetValue
  rw [hc, hostAbsent_procValue h k ha, hostAbsent_metaValue h k ha,
    hostAbsent_denoValue h k ha]

lemma hostAbsent_sources (h : Host) (k : String)
    (ha : hostAbsentB h k = true) :
    ∀ m ∈ sourceMapsInOrder h, m k = none := by
  unfold hostAbsentB at ha
  simp only [Bool.and_eq_true] at ha
  obtain ⟨⟨⟨⟨h1, h2⟩, h3⟩, h4⟩, h5⟩ := ha
  intro m hm
  unfold sourceMapsInOrder at hm
  simp only [List.mem_append] at hm
  rcases hm with ((((hm | hm) | hm) | hm) | hm)
  · have hsome : ConfigLoader.procMap h = some m :=
      Option.mem_def.mp (Option.mem_toList.mp hm)
    unfold ConfigLoader.procValue at h1
    rw [hsome] at h1
    simpa using h1
  · have hsome : ConfigLoader.metaMap h = some m :=
      Option.mem_def.mp (Option.mem_toList.mp hm)
    unfold ConfigLoader.metaValue at h2
    rw [hsome] at h2
    simpa using h2
  · have hsome : ConfigLoader.denoMap h = some m :=
      Option.mem_def.mp (Option.mem_toList.mp hm)
    unfold ConfigLoader.denoMap at hsome
    cases hdn : h.deno with
    | none => simp [hdn] at hsome
    | some d =>
      simp only [hdn] at hsome h3
      cases hto : d.toObject with
      | error e => simp [hto] at hsome
      | ok m2 =>
        simp [hto] at hsome h3
        rw [← hsome]
        exact h3.1
  · have hsome : ConfigLoader.windowMap h = some m :=
      Option.mem_def.mp (Option.mem_toList.mp hm)
    rw [hsome] at h4
    simpa using h4
  · have hsome : ConfigLoader.globalMap h = some m :=
      Option.mem_def.mp (Option.mem_toList.mp hm)
    rw [hsome] at h5
    simpa using h5

lemma lastWrite_none (ms : List EnvMap) (k : String)
    (hm : ∀ m ∈ ms, m k = none) : lastWrite ms k = none := by
  induction ms with
  | nil => rfl
  | cons m ms ih =>
    unfold lastWrite
    rw [ih (fun m' hm' => hm m' (List.mem_cons_of_mem m hm')),
      hm m (List.mem_cons_self m ms)]

lemma hostAbsent_load (h : Host) (c : EnvMap) (k : String)
    (ha : hostAbsentB h k = true) :
    ConfigLoader.loadEnvironmentVariables h c k = c k := by
  rw [loadEnvironmentVariables_eq_foldl, foldl_assign_apply,
    lastWrite_none _ _ (hostAbsent_sources h k ha)]

lemma get_none_fst (h : Host) (c : EnvMap) (k : String) :
    (ConfigLoader.get h c k none).1 =
      ((ConfigLoader.tryGetValue h c k).1 <|>
        chainLookup h c k ConfigLoader.commonPfxs) := by
  unfold ConfigLoader.get
  cases hr : ConfigLoader.tryGetValue h c k with
  | mk v c2 =>
    cases v with
    | some w => simp [hr]
    | none =>
      have hc2 : c2 = c := by
        have h' := tryGetValue_miss h c k (by rw [hr])
        rw [hr] at h'
        exact ((Prod.mk.injEq _ _ _ _).mp h').2
      subst hc2
      simp [hr, tryCommonPfxs_fst]

lemma get_some_fst (h : Host) (c : EnvMap) (k p : String) (hp : p ≠ "") :
    (ConfigLoader.get h c k (some p)).1 =
      (ConfigLoader.tryGetValue h c (p ++ k)).1 := by
  unfold ConfigLoader.get
  cases hr : ConfigLoader.tryGetValue h c (p ++ k) with
  | mk v c2 => cases v <;> simp [hr, hp]

/-!  The claims. -/

/-- C1: `get(key)` with no prefix option first tries the key itself,
then falls back to the direct lookup of `VITE_`, `REACT_APP_`,
`VUE_APP_`, `NEXT_PUBLIC_` + key in that fixed order, returning at the
first hit; with a caller-supplied (non-empty) prefix, only prefix+key
is looked up and no common-prefix fallback runs. -/
theorem get_common_fallback_order (h : Host) (c : EnvMap) (k p : String)
    (hp : p ≠ "") :
    ((ConfigLoader.get h c k none).1 =
      ((ConfigLoader.tryGetValue h c k).1 <|>
        chainLookup h c k ConfigLoader.commonPfxs)) ∧
    (ConfigLoader.get h c k (some p)).1 =
      (ConfigLoader.tryGetValue h c (p ++ k)).1 :=
  ⟨get_none_fst h c k, get_some_fst h c k p hp⟩

/-- Host for the C1 witness: only `import.meta.env` is available and
it defines `VITE_API_URL=foo` alone. -/
def hostVite : Host :=
  { processEnv := none
    metaEnv := some (some (fun j => if j = "VITE_API_URL" then some "foo" else none))
    globalImportMeta := true
    deno := none
    bun := false
    window := none
    globalEnvObj := none }

/-- Witness for C1 at a key present only under `VITE_`: `get` with no
prefix finds it, `get` with prefix `OTHER_` does not. -/
theorem get_common_fallback_order_witness :
    (("OTHER_" : String) ≠ "") ∧
    (((ConfigLoader.get hostVite emptyEnv "API_URL" none).1 =
      ((ConfigLoader.tryGetValue hostVite emptyEnv "API_URL").1 <|>
        chainLookup hostVite emptyEnv "API_URL" ConfigLoader.commonPfxs)) ∧
     (ConfigLoader.get hostVite emptyEnv "API_URL" (some "OTHER_")).1 =
      (ConfigLoader.tryGetValue hostVite emptyEnv ("OTHER_" ++ "API_URL")).1) ∧
    (ConfigLoader.get hostVite emptyEnv "API_URL" none).1 = some "foo" ∧
    (ConfigLoader.get hostVite emptyEnv "API_URL" (some "OTHER_")).1 = none :=
  ⟨by decide,
    get_common_fallback_order hostVite emptyEnv "API_URL" "OTHER_" (by decide),
    by decide, by decide⟩

/-- C2: the direct lookup checks the cached Snapshot, then the
process-style mapping, the bundler build-time mapping and the
Deno-style accessor, each later step only on a miss of the previous; a
hit in the re-query steps is written into the Snapshot before being
returned, and if all steps miss the lookup returns the not-found
marker with the Snapshot unchanged. -/
theorem tryGetValue_refines_direct_lookup (h : Host) (c : EnvMap)
    (k : String) :
    ConfigLoader.tryGetValue h c k = directLookupSpec h c k := by
  unfold ConfigLoader.tryGetValue directLookupSpec
  cases c k <;> cases hp : ConfigLoader.procValue h k <;>
    cases hm : ConfigLoader.metaValue h k <;>
    cases hd : ConfigLoader.denoValue h k <;> simp [hp, hm, hd]

/-- A host exposing no environment source at all. -/
def hostNone : Host :=
  { processEnv := none
    metaEnv := none
    globalImportMeta := false
    deno := none
    bun := false
    window := none
    globalEnvObj := none }

/-- Cache for the C3 failing input: the key `K` holds `abc`. -/
def cacheAbc : EnvMap := cacheInsert emptyEnv "K" "abc"

/-- C3, evaluated at the failing input: the claim says the re-signaled
failure carries the underlying cause, but the code's
`new Error(message, e)` treats `e` as an options bag and installs no
cause for a typical caught exception (one with no `cause` property,
like every error the loader's own typed getters throw).  At key `K`
holding `abc`, a transform throwing a plain error yields a failure
whose message names only the resolved key and whose cause is empty;
two transforms throwing distinct causes yield the very same failure,
so the failure does not carry the underlying cause. -/
theorem getTransformed_drops_cause :
    ((ConfigLoader.getTransformed hostNone cacheAbc "K"
        (fun _ => (Except.error ⟨"underlying cause A", none⟩ :
          Except JsThrown Unit)) none).1 =
      Except.error
        ⟨"Failed to transform config value for key \"K\":", none⟩) ∧
    ((ConfigLoader.getTransformed hostNone cacheAbc "K"
        (fun _ => (Except.error ⟨"underlying cause B", none⟩ :
          Except JsThrown Unit)) none).1 =
      (ConfigLoader.getTransformed hostNone cacheAbc "K"
        (fun _ => (Except.error ⟨"underlying cause A", none⟩ :
          Except JsThrown Unit)) none).1) ∧
    (⟨"underlying cause A", none⟩ : JsThrown) ≠
      (⟨"underlying cause B", none⟩ : JsThrown) :=
  ⟨rfl, rfl, by decide⟩

/-- C4: at construction and on refresh the Environment Snapshot equals
the last-writer-wins merge of the sources in the fixed order: process
env, bundler build-time env, Deno bulk export, browser-injected env
object, catch-all global env object. -/
theorem envCache_last_writer_wins (h : Host) (s : ConfigLoaderState)
    (k : String) :
    ((ConfigLoader.init h).envCache k = lastWrite (sourceMapsInOrder h) k) ∧
    (ConfigLoader.refresh h s).envCache k =
      lastWrite (sourceMapsInOrder h) k := by
  have base : ConfigLoader.loadEnvironmentVariables h emptyEnv k =
      lastWrite (sourceMapsInOrder h) k := by
    rw [loadEnvironmentVariables_eq_foldl, foldl_assign_apply]
    cases lastWrite (sourceMapsInOrder h) k <;> rfl
  exact ⟨base, base⟩

/-- C5: a Deno-style source whose bulk export throws is silently
skipped — loading (hence construction and refresh) proceeds exactly as
if the source were absent, and no failure reaches the caller (the
loader's result type is a plain snapshot, not a fallible one). -/
theorem load_skips_throwing_deno (h : Host) (e : String)
    (g : String → Except String (Option String)) (c : EnvMap)
    (s : ConfigLoaderState) (k : String) :
    (ConfigLoader.loadEnvironmentVariables
        { h with deno := some ⟨Except.error e, g⟩ } c k =
      ConfigLoader.loadEnvironmentVariables { h with deno := none } c k) ∧
    ((ConfigLoader.init { h with deno := some ⟨Except.error e, g⟩ }).envCache k =
      (ConfigLoader.init { h with deno := none }).envCache k) ∧
    (ConfigLoader.refresh { h with deno := some ⟨Except.error e, g⟩ } s).envCache k =
      (ConfigLoader.refresh { h with deno := none } s).envCache k := by
  have base : ∀ c2 : EnvMap,
      ConfigLoader.loadEnvironmentVariables
          { h with deno := some ⟨Except.error e, g⟩ } c2 k =
        ConfigLoader.loadEnvironmentVariables { h with deno := none } c2 k := by
    intro c2
    unfold ConfigLoader.loadEnvironmentVariables
    simp [ConfigLoader.denoMap, ConfigLoader.procMap, ConfigLoader.metaMap,
      ConfigLoader.windowMap, ConfigLoader.globalMap]
  exact ⟨base c, base emptyEnv, base emptyEnv⟩

/-- C6: `getRequired` fails exactly when `get` misses, with a message
naming the originally requested key (not the resolved full key), and
succeeds with exactly the string `get` returns. -/
theorem getRequired_names_original_key (h : Host) (c : EnvMap)
    (k : String) (opts : Option String) :
    (((ConfigLoader.getRequired h c k opts).1 =
        Except.error ("Required config value \"" ++ k ++ "\" is not defined")) ↔
      (ConfigLoader.get h c k opts).1 = none) ∧
    ∀ v, ((ConfigLoader.getRequired h c k opts).1 = Except.ok v) ↔
      (ConfigLoader.get h c k opts).1 = some v := by
  unfold ConfigLoader.getRequired
  cases hg : (ConfigLoader.get h c k opts).1 with
  | some v =>
    refine ⟨by simp [hg], fun v2 => ?_⟩
    simp [hg]
  | none =>
    refine ⟨by simp [hg], fun v2 => ?_⟩
    simp [hg]

/-- C7: after `set(k, v)` and before the next refresh, `get(k)`
returns exactly `v` and `has(k)` is true, whatever the sources
contain. -/
theorem set_get_roundtrip (h : Host) (c : EnvMap) (k v : String) :
    ((ConfigLoader.get h (ConfigLoader.set c k v) k none).1 = some v) ∧
    ConfigLoader.has h (ConfigLoader.set c k v) k = true := by
  have hget : (ConfigLoader.get h (ConfigLoader.set c k v) k none).1 = some v := by
    unfold ConfigLoader.get ConfigLoader.tryGetValue
    simp [ConfigLoader.set, cacheInsert]
  refine ⟨hget, ?_⟩
  unfold ConfigLoader.has
  rw [hget]
  rfl

/-- C8: `refresh` empties the Snapshot and re-runs the source merger,
so a key absent from every source (even one previously written via
`set`) no longer satisfies `has`; the runtime detection record is
untouched by refresh, `getRuntime` returns its value unchanged, and it
is the record computed at construction. -/
theorem refresh_clears_cache_keeps_runtime (h : Host)
    (s : ConfigLoaderState) (k : String)
    (ha : ((k :: ConfigLoader.commonPfxs.map (fun p => p ++ k)).all
      (hostAbsentB h)) = true) :
    (ConfigLoader.has h (ConfigLoader.refresh h s).envCache k = false) ∧
    ((ConfigLoader.refresh h s).runtimeDetection = s.runtimeDetection) ∧
    (ConfigLoader.getRuntime (ConfigLoader.refresh h s) = s.runtimeDetection) ∧
    (ConfigLoader.init h).runtimeDetection = ConfigLoader.detectRuntime h := by
  simp only [ConfigLoader.commonPfxs, List.map, List.all_cons, List.all_nil,
    Bool.and_eq_true, Bool.and_true] at ha
  obtain ⟨hak, haV, haR, haU, haN⟩ := ha
  have hload : ∀ j, hostAbsentB h j = true →
      (ConfigLoader.refresh h s).envCache j = none := by
    intro j hj
    show ConfigLoader.loadEnvironmentVariables h emptyEnv j = none
    rw [hostAbsent_load h emptyEnv j hj]
    rfl
  have hstep : ∀ j, hostAbsentB h j = true →
      (ConfigLoader.tryGetValue h (ConfigLoader.refresh h s).envCache j).1 =
        none := by
    intro j hj
    rw [hostAbsent_tryGetValue h _ j hj (hload j hj)]
  refine ⟨?_, rfl, rfl, rfl⟩
  unfold ConfigLoader.has
  rw [get_none_fst, hstep k hak]
  simp [chainLookup, ConfigLoader.commonPfxs, hstep _ haV, hstep _ haR,
    hstep _ haU, hstep _ haN]

/-- Witness for C8: a key written only via `set` stops satisfying
`has` after `refresh` when no source defines it. -/
theorem refresh_clears_cache_keeps_runtime_witness :
    ((("K" : String) :: ConfigLoader.commonPfxs.map (fun p => p ++ "K")).all
        (hostAbsentB hostNone) = true) ∧
    ((ConfigLoader.has hostNone
        (ConfigLoader.refresh hostNone
          ⟨ConfigLoader.detectRuntime hostNone,
            ConfigLoader.set emptyEnv "K" "v"⟩).envCache "K" = false) ∧
     ((ConfigLoader.refresh hostNone
          ⟨ConfigLoader.detectRuntime hostNone,
            ConfigLoader.set emptyEnv "K" "v"⟩).runtimeDetection =
        ConfigLoader.detectRuntime hostNone) ∧
     (ConfigLoader.getRuntime
          (ConfigLoader.refresh hostNone
            ⟨ConfigLoader.detectRuntime hostNone,
              ConfigLoader.set emptyEnv "K" "v"⟩) =
        ConfigLoader.detectRuntime hostNone) ∧
     (ConfigLoader.init hostNone).runtimeDetection =
        ConfigLoader.detectRuntime hostNone) :=
  ⟨by decide,
    refresh_clears_cache_keeps_runtime hostNone
      ⟨ConfigLoader.detectRuntime hostNone,
        ConfigLoader.set emptyEnv "K" "v"⟩ "K" (by decide)⟩

/-- C9: an explicit empty-string prefix option behaves identically to
passing no prefix option at all (same effective key, common-prefix
fallback still attempted). -/
theorem empty_pfx_opt_eq_no_opt (h : Host) (c : EnvMap) (k : String) :
    ConfigLoader.get h c k (some "") = ConfigLoader.get h c k none := rfl

/-- C10: when the raw string found by `get` trims to the empty string
(empty or whitespace-only), `getNumber` returns the number 0 rather
than a not-a-valid-number failure, and it signals the failure exactly
for strings whose `Number(...)` coercion is NaN. -/
theorem getNumber_empty_string_zero (h : Host) (c : EnvMap) (k : String)
    (opts : Option String) (s : String)
    (hs : (ConfigLoader.get h c k opts).1 = some s) :
    (jsTrim s = "" →
      (ConfigLoader.getNumber h c k opts).1 =
        Except.ok (some (JsNumber.val 0))) ∧
    ((∃ e, (ConfigLoader.getNumber h c k opts).1 = Except.error e) ↔
      jsStringToNumber s = JsNumber.nan) := by
  have key : (ConfigLoader.getNumber h c k opts).1 =
      (if jsStringToNumber s = JsNumber.nan
        then Except.error ⟨"Failed to transform config value for key \"" ++
          ConfigLoader.resolvedKey k opts ++ "\":", none⟩
        else Except.ok (some (jsStringToNumber s))) := by
    unfold ConfigLoader.getNumber
    rw [getTransformed_fst, hs]
    by_cases hn : jsStringToNumber s = JsNumber.nan
    · simp [hn]
    · simp [hn]
  constructor
  · intro ht
    have hval : jsStringToNumber s = JsNumber.val 0 := by
      unfold jsStringToNumber
      simp [ht]
    rw [key, hval]
    simp
  · constructor
    · rintro ⟨e, he⟩
      by_cases hn : jsStringToNumber s = JsNumber.nan
      · exact hn
      · rw [key] at he
        simp [hn] at he
    · intro hn
      rw [key]
      simp [hn]

/-- Cache for the C10 witness: the key `K` holds the empty string. -/
def cacheEmptyVal : EnvMap := cacheInsert emptyEnv "K" ""

/-- Witness for C10 at a key whose raw value is the empty string. -/
theorem getNumber_empty_string_zero_witness :
    ((ConfigLoader.get hostNone cacheEmptyVal "K" none).1 = some "") ∧
    ((jsTrim "" = "" →
        (ConfigLoader.getNumber hostNone cacheEmptyVal "K" none).1 =
          Except.ok (some (JsNumber.val 0))) ∧
     ((∃ e, (ConfigLoader.getNumber hostNone cacheEmptyVal "K" none).1 =
          Except.error e) ↔
        jsStringToNumber "" = JsNumber.nan)) :=
  ⟨by decide,
    getNumber_empty_string_zero hostNone cacheEmptyVal "K" none "" (by decide)⟩

end SpaConfig
